import Mathlib

/-!
Verification of the tournament-results tracker (`src/tournament.py`).

Shallow embedding conventions:
* Python `float` amounts (buy-in, rake, result) are modelled as `ℚ`;
  Python `int` fields as `ℤ`; `datetime.date` as a `Date` record of three
  naturals compared lexicographically (Python compares dates that way).
* `Optional[X]` parameters are `Option X`; Python truthiness of a string
  (`if room:`) is "not the empty string".
* Fallible construction (`from_csv_row`) returns an `Option` paired with
  the list of printed warnings.
-/

/-- Calendar date, as in Python `datetime.date` (compared lexicographically). -/
structure Date where
  year : Nat
  month : Nat
  day : Nat
deriving DecidableEq, Repr

/-- Python `date <` comparison: lexicographic on (year, month, day). -/
def dateLt (a b : Date) : Bool :=
  decide (a.year < b.year) ||
    (decide (a.year = b.year) &&
      (decide (a.month < b.month) ||
        (decide (a.month = b.month) && decide (a.day < b.day))))

/-- Lexicographic `≤` on dates (the spec's inclusive date comparison). -/
def dateLe (a b : Date) : Bool :=
  decide (a.year < b.year) ||
    (decide (a.year = b.year) &&
      (decide (a.month < b.month) ||
        (decide (a.month = b.month) && decide (a.day ≤ b.day))))

/-- `str.lower()` (character-wise case mapping, structural on the data). -/
def strLower (s : String) : String := String.mk (s.data.map Char.toLower)

/-- `str.upper()` (character-wise case mapping, structural on the data). -/
def strUpper (s : String) : String := String.mk (s.data.map Char.toUpper)

/-- `str.strip()`: drop whitespace at both ends. -/
def pyStrip (s : String) : String :=
  String.mk (((s.data.dropWhile Char.isWhitespace).reverse.dropWhile
    Char.isWhitespace).reverse)

/-- One tournament record (`@dataclass Tournament`). -/
structure Tournament where
  date : Date
  room : String
  name : String
  buy_in : ℚ
  rake : ℚ
  currency : String
  result : ℚ
  place : Int
  players : Int
  format : String
  notes : String
deriving DecidableEq, Repr

/-- `Tournament.total_cost`: buy-in plus rake. -/
def Tournament.total_cost (t : Tournament) : ℚ := t.buy_in + t.rake

/-- `Tournament.profit`: result minus total cost. -/
def Tournament.profit (t : Tournament) : ℚ := t.result - t.total_cost

/-- `Tournament.is_itm`: whether there was a prize (`result > 0`). -/
def Tournament.is_itm (t : Tournament) : Bool := decide (0 < t.result)

/-- The record returned by `calc_summary_stats`. -/
structure Stats where
  total : Nat
  total_itm : Nat
  total_buy_in : ℚ
  total_rake : ℚ
  total_cost : ℚ
  total_result : ℚ
  profit : ℚ
  itm_pct : ℚ
  roi_pct : ℚ
deriving DecidableEq, Repr

/-- `calc_summary_stats`: summary statistics over a selection of tournaments.
Guards mirror the Python conditionals: `if total` (a nonzero count) and
`if total_cost > 0`. -/
def calc_summary_stats (ts : List Tournament) : Stats :=
  let total := ts.length
  let total_itm := (ts.filter (fun t => t.is_itm)).length
  let total_buy_in := (ts.map (fun t => t.buy_in)).sum
  let total_rake := (ts.map (fun t => t.rake)).sum
  let total_cost := total_buy_in + total_rake
  let total_result := (ts.map (fun t => t.result)).sum
  let profit := total_result - total_cost
  let itm_pct := if total ≠ 0 then (total_itm : ℚ) / (total : ℚ) * 100 else 0
  let roi_pct := if 0 < total_cost then profit / total_cost * 100 else 0
  ⟨total, total_itm, total_buy_in, total_rake, total_cost, total_result, profit,
    itm_pct, roi_pct⟩

/-- The optional parameters of `filter_tournaments`. -/
structure FilterParams where
  from_date : Option Date
  to_date : Option Date
  room : Option String
  format_ : Option String
  currency : Option String
deriving DecidableEq, Repr

/-- The per-record keep condition of the `filter_tournaments` loop: each
`continue` branch of the Python loop becomes a conjunct.  A string criterion
that is `None` or `""` is falsy in Python, so it imposes no constraint. -/
def passes (p : FilterParams) (t : Tournament) : Bool :=
  (match p.from_date with
   | none => true
   | some f => !dateLt t.date f) &&
  (match p.to_date with
   | none => true
   | some g => !dateLt g t.date) &&
  (match p.room with
   | none => true
   | some s => if s = "" then true else strLower t.room == strLower s) &&
  (match p.format_ with
   | none => true
   | some s => if s = "" then true else strLower t.format == strLower s) &&
  (match p.currency with
   | none => true
   | some s => if s = "" then true else strUpper t.currency == strUpper s)

/-- `filter_tournaments`: the loop appends exactly the records that pass all
provided criteria, preserving input order — i.e. `List.filter`. -/
def filter_tournaments (ts : List Tournament) (p : FilterParams) : List Tournament :=
  ts.filter (passes p)

/-- Append a record to the group of key `k` in an association list, creating
the group at the end when the key is new: `defaultdict(list)` behaviour
(Python dicts preserve key insertion order). -/
def addToBucket (k : String) (t : Tournament) :
    List (String × List Tournament) → List (String × List Tournament)
  | [] => [(k, [t])]
  | (k₀, g) :: rest =>
    if k₀ = k then (k₀, g ++ [t]) :: rest else (k₀, g) :: addToBucket k t rest

/-- Group records by a key function, groups in first-seen key order. -/
def groupByKey (f : Tournament → String) (ts : List Tournament) :
    List (String × List Tournament) :=
  ts.foldl (fun acc t => addToBucket (f t) t acc) []

/-- Insert a key at the end unless already present. -/
def insertNew (ks : List String) (k : String) : List String :=
  if k ∈ ks then ks else ks ++ [k]

/-- Keys in first-seen order (dict key insertion order). -/
def firstSeenKeys (keys : List String) : List String :=
  keys.foldl insertNew []

/-- Look a key's group up in an association list (empty when absent). -/
def lookupGroup (k : String) : List (String × List Tournament) → List Tournament
  | [] => []
  | (k₀, g) :: rest => if k₀ = k then g else lookupGroup k rest

/-- The key of `group_by_format`: Python `t.format or "UNKNOWN"`. -/
def fmtKey (t : Tournament) : String :=
  if t.format = "" then "UNKNOWN" else t.format

/-- `group_by_format`. -/
def group_by_format (ts : List Tournament) : List (String × List Tournament) :=
  groupByKey fmtKey ts

/-- Which bucket label the `group_by_buyin_range` if/elif chain selects. -/
def buyinKey (bi : ℚ) : String :=
  if bi < 5 then "0–5"
  else if 5 ≤ bi ∧ bi < 11 then "5–11"
  else if 11 ≤ bi ∧ bi < 33 then "11–33"
  else "33+"

/-- The four fixed bucket labels, in their creation order. -/
def buyinLabels : List String := ["0–5", "5–11", "11–33", "33+"]

/-- `group_by_buyin_range`: the four buckets are pre-created in this order and
the loop appends each record to the bucket its buy-in selects, so each bucket
holds, in input order, exactly the records whose key is its label. -/
def group_by_buyin_range (ts : List Tournament) : List (String × List Tournament) :=
  buyinLabels.map (fun L => (L, ts.filter (fun t => buyinKey t.buy_in == L)))

/-- Gregorian leap year. -/
def isLeap (y : Nat) : Bool := (y % 4 == 0 && y % 100 != 0) || y % 400 == 0

/-- Days in a month of the Gregorian calendar. -/
def daysInMonth (y m : Nat) : Nat :=
  if m = 2 then (if isLeap y then 29 else 28)
  else if m = 4 ∨ m = 6 ∨ m = 9 ∨ m = 11 then 30
  else 31

/-- Ordinal day within the year (1 for January 1st). -/
def dayOfYear (d : Date) : Nat :=
  (List.range (d.month - 1)).foldl (fun acc i => acc + daysInMonth d.year (i + 1)) 0
    + d.day

/-- Proleptic-Gregorian ordinal as in `datetime.date.toordinal`
(0001-01-01 is day 1). -/
def toOrdinal (d : Date) : Nat :=
  365 * (d.year - 1) + ((d.year - 1) / 4 - (d.year - 1) / 100) + (d.year - 1) / 400
    + dayOfYear d

/-- Ordinal of the Monday starting ISO week 1 of `year`
(CPython's `_isoweek1monday`). -/
def isoweek1monday (year : Nat) : Int :=
  let firstday : Int := (toOrdinal ⟨year, 1, 1⟩ : Nat)
  let firstweekday := (firstday + 6) % 7
  let week1monday := firstday - firstweekday
  if 3 < firstweekday then week1monday + 7 else week1monday

/-- `date.isocalendar()` restricted to (ISO year, ISO week); `Int.fdiv` is
Python's floor division `//`. -/
def isocalendar (d : Date) : Int × Int :=
  let today : Int := (toOrdinal d : Nat)
  let week := (today - isoweek1monday d.year).fdiv 7
  if week < 0 then
    ((d.year : Int) - 1, (today - isoweek1monday (d.year - 1)).fdiv 7 + 1)
  else if 52 ≤ week then
    if isoweek1monday (d.year + 1) ≤ today then ((d.year : Int) + 1, 1)
    else ((d.year : Int), week + 1)
  else ((d.year : Int), week + 1)

/-- Zero-pad a natural to the given width (as `%Y`, `%m`, `%d` do). -/
def padNum (w : Nat) (n : Nat) : String :=
  let s := toString n
  if s.length < w then String.mk (List.replicate (w - s.length) '0') ++ s else s

/-- Python `f"{w:02d}"` for the (always positive) ISO week number. -/
def pad02 (n : Int) : String :=
  let s := toString n
  if s.length < 2 then "0" ++ s else s

/-- `t.date.strftime("%Y-%m-%d")`. -/
def dayKey (d : Date) : String :=
  padNum 4 d.year ++ "-" ++ padNum 2 d.month ++ "-" ++ padNum 2 d.day

/-- `t.date.strftime("%Y-%m")`. -/
def monthKey (d : Date) : String := padNum 4 d.year ++ "-" ++ padNum 2 d.month

/-- `f"{iso_year}-W{iso_week:02d}"`. -/
def isoWeekKey (d : Date) : String :=
  toString (isocalendar d).1 ++ "-W" ++ pad02 (isocalendar d).2

/-- The bucket key the `group_by_time` loop computes for one record. -/
def timeKey (show_by : String) (t : Tournament) : String :=
  if show_by = "day" then dayKey t.date
  else if show_by = "week" then isoWeekKey t.date
  else if show_by = "month" then monthKey t.date
  else "ALL"

/-- The key order `sorted(..., key=lambda kv: kv[0])` uses. -/
def keyLe (p q : String × List Tournament) : Prop := p.1 ≤ q.1

instance : DecidableRel keyLe := fun p q => inferInstanceAs (Decidable (p.1 ≤ q.1))

instance : IsTotal (String × List Tournament) keyLe := ⟨fun p q => le_total p.1 q.1⟩

instance : IsTrans (String × List Tournament) keyLe :=
  ⟨fun _ _ _ h h₂ => le_trans h h₂⟩

/-- Python's `sorted` by key: a stable sort; the bucket keys are pairwise
distinct, so the sorted pair sequence is unique and any sorting algorithm
models it. -/
def sortByKey (l : List (String × List Tournament)) :
    List (String × List Tournament) :=
  List.insertionSort keyLe l

/-- `group_by_time`. -/
def group_by_time (ts : List Tournament) (show_by : String) :
    List (String × List Tournament) :=
  if show_by = "none" then [("ALL", ts)]
  else sortByKey (groupByKey (timeKey show_by) ts)

/-- Nonempty all-digit string. -/
def isDigitStr (s : String) : Bool := !s.data.isEmpty && s.data.all Char.isDigit

/-- Value of a digit string, most significant first. -/
def digitsVal (l : List Char) : Nat := l.foldl (fun n c => n * 10 + (c.toNat - 48)) 0

/-- Split a character list at every occurrence of `c` (Python `str.split(c)`). -/
def splitOnChar (c : Char) : List Char → List (List Char)
  | [] => [[]]
  | a :: rest =>
    match splitOnChar c rest with
    | [] => [[]]
    | seg :: segs => if a = c then [] :: seg :: segs else (a :: seg) :: segs

/-- `parse_date` via `datetime.strptime(s, "%Y-%m-%d")`: dash-separated year
(1–4 digits, value ≥ 1), month (1–2 digits, 1..12) and day (1–2 digits, valid
for that month); anything else fails. -/
def parse_date (s : String) : Option Date :=
  match (splitOnChar '-' s.data).map String.mk with
  | [ys, ms, ds] =>
    if isDigitStr ys && decide (ys.length ≤ 4) && isDigitStr ms
        && decide (ms.length ≤ 2) && isDigitStr ds && decide (ds.length ≤ 2) then
      let y := digitsVal ys.data
      let m := digitsVal ms.data
      let d := digitsVal ds.data
      if decide (1 ≤ y) && decide (1 ≤ m) && decide (m ≤ 12) && decide (1 ≤ d)
          && decide (d ≤ daysInMonth y m) then
        some ⟨y, m, d⟩
      else none
    else none
  | _ => none

/-- Unsigned decimal literal (integer part, optional fractional part),
scaled by the sign `sgn`. -/
def parseDecimalBody (sgn : ℚ) (body : List Char) : Option ℚ :=
  match splitOnChar '.' body with
  | [ip] =>
    if !ip.isEmpty && ip.all Char.isDigit then some (sgn * (digitsVal ip : ℚ))
    else none
  | [ip, fp] =>
    if (ip.all Char.isDigit && fp.all Char.isDigit) && !(ip.isEmpty && fp.isEmpty) then
      some (sgn * ((digitsVal ip : ℚ) + (digitsVal fp : ℚ) / ((10 : ℚ) ^ fp.length)))
    else none
  | _ => none

/-- Modelling Python `float()` on plain decimal literals: optional sign,
digits, optional fractional part (exponents and special values elided). -/
def parseDecimal (s : String) : Option ℚ :=
  match s.data with
  | [] => none
  | c :: rest =>
    if c = '-' then parseDecimalBody (-1) rest
    else if c = '+' then parseDecimalBody 1 rest
    else parseDecimalBody 1 (c :: rest)

/-- The nested `to_float` helper: strip, empty → 0, unparseable → 0. -/
def to_float (s : String) : ℚ :=
  let value := pyStrip s
  if value = "" then 0 else (parseDecimal value).getD 0

/-- Unsigned integer literal, scaled by the sign `sgn`. -/
def parseIntBody (sgn : ℤ) (body : List Char) : Option ℤ :=
  if !body.isEmpty && body.all Char.isDigit then some (sgn * (digitsVal body : ℤ))
  else none

/-- Modelling Python `int()` on plain integer literals. -/
def parseInt (s : String) : Option ℤ :=
  match s.data with
  | [] => none
  | c :: rest =>
    if c = '-' then parseIntBody (-1) rest
    else if c = '+' then parseIntBody 1 rest
    else parseIntBody 1 (c :: rest)

/-- The nested `to_int` helper: strip, empty → 0, unparseable → 0. -/
def to_int (s : String) : ℤ :=
  let value := pyStrip s
  if value = "" then 0 else (parseInt value).getD 0

/-- Does the (stripped) raw string start with a minus sign? -/
def startsWithDash (s : String) : Bool :=
  match s.data with
  | [] => false
  | c :: _ => decide (c = '-')

/-- A raw CSV row: each header's cell, absent when the column is missing. -/
structure Row where
  date : Option String
  room : Option String
  name : Option String
  buy_in : Option String
  rake : Option String
  currency : Option String
  result : Option String
  place : Option String
  players : Option String
  format : Option String
  notes : Option String
deriving DecidableEq, Repr

/-- Python `repr` of `row.get('date')` as interpolated into the warning
(string escaping elided). -/
def pyRepr : Option String → String
  | none => "None"
  | some s => "'" ++ s ++ "'"

/-- The diagnostic `from_csv_row` prints when the date does not parse. -/
def dateWarning (d : Option String) : String :=
  "Предупреждение: не удалось распарсить дату: " ++ pyRepr d

/-- `Tournament.from_csv_row`: the constructed record (`none` when the date
does not parse — a missing `date` column raises the same caught exception)
together with the printed warnings. -/
def Tournament.from_csv_row (r : Row) : Option Tournament × List String :=
  match r.date.bind parse_date with
  | none => (none, [dateWarning r.date])
  | some d =>
    (some ⟨d,
      pyStrip (r.room.getD ""),
      pyStrip (r.name.getD ""),
      to_float (r.buy_in.getD "0"),
      to_float (r.rake.getD "0"),
      (if pyStrip (r.currency.getD "") = "" then "USD" else pyStrip (r.currency.getD "")),
      to_float (r.result.getD "0"),
      to_int (r.place.getD "0"),
      to_int (r.players.getD "0"),
      pyStrip (r.format.getD ""),
      pyStrip (r.notes.getD "")⟩, [])

/-- Claim C2's filter semantics, following the spec's words: every provided
criterion must match — `date >= fromDate`, `date <= toDate`, case-insensitive
exact equality on room, format and currency; an absent criterion imposes no
constraint. -/
def spec_matches (p : FilterParams) (t : Tournament) : Bool :=
  (match p.from_date with
   | none => true
   | some f => dateLe f t.date) &&
  (match p.to_date with
   | none => true
   | some g => dateLe t.date g) &&
  (match p.room with
   | none => true
   | some s => strLower t.room == strLower s) &&
  (match p.format_ with
   | none => true
   | some s => strLower t.format == strLower s) &&
  (match p.currency with
   | none => true
   | some s => strUpper t.currency == strUpper s)

/-- The amended C2 semantics: as `spec_matches`, except that a criterion
supplied as the empty string also imposes no constraint. -/
def spec_matches_amended (p : FilterParams) (t : Tournament) : Bool :=
  (match p.from_date with
   | none => true
   | some f => dateLe f t.date) &&
  (match p.to_date with
   | none => true
   | some g => dateLe t.date g) &&
  (match p.room with
   | none => true
   | some s => (s == "") || strLower t.room == strLower s) &&
  (match p.format_ with
   | none => true
   | some s => (s == "") || strLower t.format == strLower s) &&
  (match p.currency with
   | none => true
   | some s => (s == "") || strUpper t.currency == strUpper s)

/-- Concrete records for the Scenario C computation. -/
def scenT1 : Tournament := ⟨⟨2024, 1, 1⟩, "", "", 5, 0, "USD", 0, 0, 0, "", ""⟩

def scenT2 : Tournament := ⟨⟨2024, 1, 2⟩, "", "", 5, 0, "USD", 20, 0, 0, "", ""⟩

/-- A record whose room is the nonempty string "A". -/
def roomA : Tournament := ⟨⟨2024, 1, 1⟩, "A", "", 5, 0, "USD", 0, 0, 0, "", ""⟩

/-- A record whose room is empty. -/
def emptyRoomT : Tournament := ⟨⟨2024, 1, 1⟩, "", "", 5, 0, "USD", 0, 0, 0, "", ""⟩

/-- A record with zero cost and a positive result. -/
def freeWinT : Tournament := ⟨⟨2024, 1, 1⟩, "", "", 0, 0, "USD", 5, 0, 0, "", ""⟩

/-- A record used to exercise the time grouping. -/
def dayT : Tournament := ⟨⟨2024, 3, 5⟩, "", "", 5, 0, "USD", 0, 0, 0, "MTT", ""⟩

/-- A row with a parseable date, a negative buy-in and a lowercase currency. -/
def rowNeg : Row :=
  ⟨some "2024-01-01", none, none, some "-5", none, some "usd", none, none, none,
    none, none⟩

/-- The record `from_csv_row` constructs from `rowNeg`. -/
def recNeg : Tournament := ⟨⟨2024, 1, 1⟩, "", "", -5, 0, "usd", 0, 0, 0, "", ""⟩

/-- A row with well-formed, non-negative fields. -/
def rowGood : Row :=
  ⟨some "2024-01-01", some "PokerOK", some "Main", some "5", none, some "USD",
    some "20", some "3", some "100", some "MTT", none⟩

/-- A row whose date does not parse. -/
def rowBadDate : Row :=
  ⟨some "oops", none, none, none, none, none, none, none, none, none, none⟩

/-- The record `from_csv_row` constructs from `rowGood`. -/
def recGood : Tournament :=
  ⟨⟨2024, 1, 1⟩, "PokerOK", "Main", to_float "5", to_float "0", "USD",
    to_float "20", to_int "3", to_int "100", "MTT", ""⟩

theorem not_dateLt (a b : Date) : (!dateLt a b) = dateLe b a := by
  have h : ((!dateLt a b) = true) ↔ (dateLe b a = true) := by
    simp only [dateLt, dateLe, Bool.not_eq_true', Bool.or_eq_false_iff,
      Bool.or_eq_true, Bool.and_eq_false_iff, Bool.and_eq_true, decide_eq_true_eq,
      decide_eq_false_iff_not]
    omega
  cases hL : (!dateLt a b) <;> cases hR : dateLe b a
  · rfl
  · exact absurd (h.mpr hR) (by simp [hL])
  · exact absurd (h.mp hL) (by simp [hR])
  · rfl

theorem ite_empty_or (s : String) (b : Bool) :
    (if s = "" then true else b) = ((s == "") || b) := by
  by_cases h : s = "" <;> simp [h]

theorem passes_eq_amended (p : FilterParams) (t : Tournament) :
    passes p t = spec_matches_amended p t := by
  rcases p with ⟨fd, td, rm, fm, cu⟩
  rcases fd with _ | f <;> rcases td with _ | g <;> rcases rm with _ | s₁ <;>
    rcases fm with _ | s₂ <;> rcases cu with _ | s₃ <;>
    simp only [passes, spec_matches_amended, not_dateLt, ite_empty_or]

theorem strLower_eq_empty_iff (s : String) : strLower s = "" ↔ s = "" := by
  constructor
  · intro h
    have hd : s.data.map Char.toLower = [] := congrArg String.data h
    have hnil : s.data = [] := by simpa using hd
    exact String.ext hnil
  · intro h
    subst h
    rfl

theorem addToBucket_map_fst (k : String) (t : Tournament) :
    ∀ acc : List (String × List Tournament),
      (addToBucket k t acc).map Prod.fst = insertNew (acc.map Prod.fst) k
  | [] => by simp [addToBucket, insertNew]
  | (k₀, g) :: rest => by
    by_cases h : k₀ = k
    · subst h
      simp [addToBucket, insertNew]
    · have hne : ¬k = k₀ := fun he => h he.symm
      simp only [addToBucket, if_neg h, List.map_cons,
        addToBucket_map_fst k t rest, insertNew, List.mem_cons, hne, false_or]
      by_cases hk : k ∈ rest.map Prod.fst <;> simp [hk]

theorem foldl_addToBucket_fst (f : Tournament → String) :
    ∀ (ts : List Tournament) (acc : List (String × List Tournament)),
      ((ts.foldl (fun a t => addToBucket (f t) t a) acc).map Prod.fst)
        = (ts.map f).foldl insertNew (acc.map Prod.fst)
  | [], _ => rfl
  | t :: ts, acc => by
    simp only [List.foldl_cons, List.map_cons]
    rw [foldl_addToBucket_fst f ts, addToBucket_map_fst]

theorem groupByKey_fst (f : Tournament → String) (ts : List Tournament) :
    (groupByKey f ts).map Prod.fst = firstSeenKeys (ts.map f) := by
  simpa using foldl_addToBucket_fst f ts []

theorem mem_foldl_insertNew (k : String) :
    ∀ (l acc : List String), k ∈ l.foldl insertNew acc ↔ k ∈ acc ∨ k ∈ l
  | [], acc => by simp
  | a :: l, acc => by
    simp only [List.foldl_cons]
    rw [mem_foldl_insertNew k l]
    unfold insertNew
    by_cases h : a ∈ acc <;> by_cases hk : k = a <;>
      simp [h, hk, List.mem_append]

theorem mem_firstSeenKeys (k : String) (l : List String) :
    k ∈ firstSeenKeys l ↔ k ∈ l := by
  unfold firstSeenKeys
  rw [mem_foldl_insertNew]
  simp

theorem nodup_insertNew (ks : List String) (k : String) (h : ks.Nodup) :
    (insertNew ks k).Nodup := by
  unfold insertNew
  by_cases hk : k ∈ ks
  · simpa [hk]
  · simp [hk, List.nodup_append, h]

theorem nodup_foldl_insertNew :
    ∀ (l acc : List String), acc.Nodup → (l.foldl insertNew acc).Nodup
  | [], _, h => h
  | a :: l, acc, h => nodup_foldl_insertNew l _ (nodup_insertNew acc a h)

theorem firstSeenKeys_nodup (l : List String) : (firstSeenKeys l).Nodup :=
  nodup_foldl_insertNew l [] (by simp)

theorem lookupGroup_addToBucket (k k₁ : String) (t : Tournament) :
    ∀ acc, lookupGroup k (addToBucket k₁ t acc)
      = if k₁ = k then lookupGroup k acc ++ [t] else lookupGroup k acc
  | [] => by
    by_cases h : k₁ = k <;> simp [addToBucket, lookupGroup, h]
  | (k₀, g) :: rest => by
    by_cases h₀ : k₀ = k₁
    · subst h₀
      by_cases hk : k₀ = k <;> simp [addToBucket, lookupGroup, hk]
    · by_cases hk : k₀ = k
      · subst hk
        have hne : k₁ ≠ k₀ := fun he => h₀ he.symm
        simp [addToBucket, h₀, lookupGroup, hne]
      · simp [addToBucket, h₀, lookupGroup, hk, lookupGroup_addToBucket k k₁ t rest]

theorem lookupGroup_foldl (f : Tournament → String) (k : String) :
    ∀ (ts : List Tournament) (acc),
      lookupGroup k (ts.foldl (fun a t => addToBucket (f t) t a) acc)
        = lookupGroup k acc ++ ts.filter (fun t => f t == k)
  | [], acc => by simp
  | t :: ts, acc => by
    simp only [List.foldl_cons, List.filter_cons]
    rw [lookupGroup_foldl f k ts, lookupGroup_addToBucket]
    by_cases h : f t = k
    · simp [h, List.append_assoc]
    · simp [h]

theorem lookupGroup_groupByKey (f : Tournament → String) (k : String)
    (ts : List Tournament) :
    lookupGroup k (groupByKey f ts) = ts.filter (fun t => f t == k) := by
  unfold groupByKey
  rw [lookupGroup_foldl]
  rfl

theorem lookupGroup_keysMap (F : String → List Tournament) (k : String) :
    ∀ keys : List String,
      lookupGroup k (keys.map (fun k₁ => (k₁, F k₁)))
        = if k ∈ keys then F k else []
  | [] => by simp [lookupGroup]
  | a :: keys => by
    by_cases h : a = k
    · subst h
      simp [lookupGroup]
    · have hne : ¬k = a := fun he => h he.symm
      simp [lookupGroup, h, lookupGroup_keysMap F k keys, hne]

theorem lookupGroup_eq_nil (k : String) :
    ∀ l : List (String × List Tournament),
      k ∉ l.map Prod.fst → lookupGroup k l = []
  | [], _ => rfl
  | (k₀, g) :: rest, h => by
    simp only [List.map_cons, List.mem_cons] at h
    push_neg at h
    have : k₀ ≠ k := fun he => h.1 he.symm
    simp [lookupGroup, this, lookupGroup_eq_nil k rest h.2]

theorem assoc_ext :
    ∀ l₁ l₂ : List (String × List Tournament),
      l₁.map Prod.fst = l₂.map Prod.fst →
      (l₁.map Prod.fst).Nodup →
      (∀ k, lookupGroup k l₁ = lookupGroup k l₂) →
      l₁ = l₂
  | [], [], _, _, _ => rfl
  | [], _ :: _, hk, _, _ => by simp at hk
  | _ :: _, [], hk, _, _ => by simp at hk
  | (k, g) :: l₁, (k₁, g₁) :: l₂, hk, hn, hl => by
    simp only [List.map_cons, List.cons.injEq] at hk
    obtain ⟨hkk, htl⟩ := hk
    subst hkk
    have hg : g = g₁ := by
      have h := hl k
      simpa [lookupGroup] using h
    subst hg
    have hkn : k ∉ l₁.map Prod.fst := by
      simp only [List.map_cons, List.nodup_cons] at hn
      exact hn.1
    have hkn₂ : k ∉ l₂.map Prod.fst := htl ▸ hkn
    have hnd : (l₁.map Prod.fst).Nodup := by
      simp only [List.map_cons, List.nodup_cons] at hn
      exact hn.2
    have htail : ∀ k₂, lookupGroup k₂ l₁ = lookupGroup k₂ l₂ := by
      intro k₂
      by_cases h₂ : k₂ = k
      · subst h₂
        rw [lookupGroup_eq_nil k₂ l₁ hkn, lookupGroup_eq_nil k₂ l₂ hkn₂]
      · have hne : k ≠ k₂ := fun he => h₂ he.symm
        have h := hl k₂
        simpa [lookupGroup, hne] using h
    rw [assoc_ext l₁ l₂ htl hnd htail]

theorem groupByKey_eq (f : Tournament → String) (ts : List Tournament) :
    groupByKey f ts
      = (firstSeenKeys (ts.map f)).map
          (fun k => (k, ts.filter (fun t => f t == k))) := by
  apply assoc_ext
  · rw [groupByKey_fst, List.map_map]
    exact (List.map_id' _).symm
  · rw [groupByKey_fst]
    exact firstSeenKeys_nodup _
  · intro k
    rw [lookupGroup_groupByKey, lookupGroup_keysMap]
    by_cases h : k ∈ firstSeenKeys (ts.map f)
    · rw [if_pos h]
    · rw [if_neg h]
      rw [List.filter_eq_nil_iff]
      intro t ht
      have : f t ≠ k := by
        intro he
        exact h ((mem_firstSeenKeys k _).mpr (List.mem_map.mpr ⟨t, ht, he⟩))
      simp [this]

theorem group_by_time_group_key (ts : List Tournament) (mode : String)
    (h : mode ≠ "none") (k : String) (g : List Tournament)
    (hm : (k, g) ∈ group_by_time ts mode) :
    g = ts.filter (fun t => timeKey mode t == k) := by
  unfold group_by_time at hm
  rw [if_neg h] at hm
  unfold sortByKey at hm
  have hm₂ : (k, g) ∈ groupByKey (timeKey mode) ts :=
    ((List.perm_insertionSort keyLe _).mem_iff).mp hm
  rw [groupByKey_eq] at hm₂
  obtain ⟨k₁, hk₁, he⟩ := List.mem_map.mp hm₂
  obtain ⟨he₁, he₂⟩ := Prod.mk.injEq .. ▸ he
  exact he₁ ▸ he₂.symm

theorem group_by_time_complete (ts : List Tournament) (mode : String)
    (h : mode ≠ "none") (t : Tournament) (ht : t ∈ ts) :
    ∃ g, (timeKey mode t, g) ∈ group_by_time ts mode ∧ t ∈ g := by
  refine ⟨ts.filter (fun x => timeKey mode x == timeKey mode t), ?_, ?_⟩
  · unfold group_by_time
    rw [if_neg h]
    unfold sortByKey
    rw [(List.perm_insertionSort keyLe _).mem_iff]
    rw [groupByKey_eq]
    apply List.mem_map.mpr
    exact ⟨timeKey mode t,
      (mem_firstSeenKeys _ _).mpr (List.mem_map.mpr ⟨t, ht, rfl⟩), rfl⟩
  · exact List.mem_filter.mpr ⟨ht, by simp⟩

theorem group_by_time_sorted (ts : List Tournament) (mode : String)
    (h : mode ≠ "none") : List.Sorted keyLe (group_by_time ts mode) := by
  unfold group_by_time
  rw [if_neg h]
  exact List.sorted_insertionSort keyLe _

theorem foldl_addToBucket_const (ts : List Tournament) :
    ∀ g, ts.foldl (fun acc t => addToBucket "ALL" t acc) [("ALL", g)]
      = [("ALL", g ++ ts)] := by
  induction ts with
  | nil => intro g; simp
  | cons t ts ih =>
    intro g
    simp only [List.foldl_cons]
    rw [show addToBucket "ALL" t [("ALL", g)] = [("ALL", g ++ [t])] from by
      simp [addToBucket]]
    rw [ih]
    simp

theorem groupByKey_const_ALL (ts : List Tournament) (h : ts ≠ []) :
    groupByKey (fun _ => "ALL") ts = [("ALL", ts)] := by
  rcases ts with _ | ⟨t, ts⟩
  · exact absurd rfl h
  · unfold groupByKey
    simp only [List.foldl_cons]
    rw [show addToBucket "ALL" t [] = [("ALL", [t])] from rfl]
    rw [foldl_addToBucket_const]
    simp

theorem group_by_time_unknown (ts : List Tournament) (mode : String)
    (h₀ : mode ≠ "none") (h₁ : mode ≠ "day") (h₂ : mode ≠ "week")
    (h₃ : mode ≠ "month") (hne : ts ≠ []) :
    group_by_time ts mode = [("ALL", ts)] := by
  unfold group_by_time
  rw [if_neg h₀]
  have hkey : timeKey mode = fun _ => "ALL" := by
    funext t
    simp [timeKey, h₁, h₂, h₃]
  rw [hkey, groupByKey_const_ALL ts hne]
  rfl

theorem parseDecimalBody_one_nonneg (l : List Char) :
    0 ≤ (parseDecimalBody 1 l).getD 0 := by
  unfold parseDecimalBody
  rcases hs : splitOnChar '.' l with _ | ⟨ip, _ | ⟨fp, _ | _⟩⟩ <;> simp only
  · simp
  · split_ifs with h
    · simp only [Option.getD_some, one_mul]
      positivity
    · simp
  · split_ifs with h
    · simp only [Option.getD_some, one_mul]
      positivity
    · simp
  · simp

theorem to_float_nonneg (s : String)
    (h : startsWithDash (pyStrip s) = false) : 0 ≤ to_float s := by
  unfold to_float
  by_cases he : pyStrip s = ""
  · simp [he]
  · rw [if_neg he]
    unfold startsWithDash at h
    rcases hd : (pyStrip s).data with _ | ⟨c, rest⟩
    · simp [parseDecimal, hd]
    · rw [hd] at h
      simp only [decide_eq_false_iff_not] at h
      simp only [parseDecimal, hd, if_neg h]
      by_cases hc : c = '+' <;> simp only [hc, if_true, if_false, if_pos, if_neg,
        reduceIte] <;> first
        | exact parseDecimalBody_one_nonneg rest
        | exact parseDecimalBody_one_nonneg (c :: rest)

theorem to_int_nonneg (s : String)
    (h : startsWithDash (pyStrip s) = false) : 0 ≤ to_int s := by
  unfold to_int
  by_cases he : pyStrip s = ""
  · simp [he]
  · rw [if_neg he]
    unfold startsWithDash at h
    rcases hd : (pyStrip s).data with _ | ⟨c, rest⟩
    · simp [parseInt, hd]
    · rw [hd] at h
      simp only [decide_eq_false_iff_not] at h
      simp only [parseInt, hd, if_neg h]
      have hbody : ∀ l : List Char, 0 ≤ (parseIntBody 1 l).getD 0 := by
        intro l
        unfold parseIntBody
        split_ifs with hl
        · simp only [Option.getD_some, one_mul]
          positivity
        · simp
      by_cases hc : c = '+' <;> simp only [hc, reduceIte] <;> first
        | exact hbody rest
        | exact hbody (c :: rest)

theorem buyinKey_mem_labels (bi : ℚ) : buyinKey bi ∈ buyinLabels := by
  unfold buyinKey buyinLabels
  split_ifs <;> simp

theorem buyin_filter_exclusive (ts : List Tournament) (L₁ L₂ : String)
    (hne : L₁ ≠ L₂) (t : Tournament)
    (h₁ : t ∈ ts.filter (fun x => buyinKey x.buy_in == L₁)) :
    t ∉ ts.filter (fun x => buyinKey x.buy_in == L₂) := by
  intro h₂
  have e₁ := (List.mem_filter.mp h₁).2
  have e₂ := (List.mem_filter.mp h₂).2
  simp only [beq_iff_eq] at e₁ e₂
  exact hne (e₁ ▸ e₂)

theorem buyinKey_intervals (bi : ℚ) (h : 0 ≤ bi) :
    (buyinKey bi = "0–5" ↔ 0 ≤ bi ∧ bi < 5)
    ∧ (buyinKey bi = "5–11" ↔ 5 ≤ bi ∧ bi < 11)
    ∧ (buyinKey bi = "11–33" ↔ 11 ≤ bi ∧ bi < 33)
    ∧ (buyinKey bi = "33+" ↔ 33 ≤ bi) := by
  unfold buyinKey
  split_ifs with h₁ h₂ h₃
  · exact ⟨⟨fun _ => ⟨h, h₁⟩, fun _ => rfl⟩,
      ⟨fun hs => absurd hs (by decide), fun hr => absurd h₁ (not_lt.mpr (by linarith [hr.1]))⟩,
      ⟨fun hs => absurd hs (by decide), fun hr => absurd h₁ (not_lt.mpr (by linarith [hr.1]))⟩,
      ⟨fun hs => absurd hs (by decide), fun hr => absurd h₁ (not_lt.mpr (by linarith))⟩⟩
  · exact ⟨⟨fun hs => absurd hs (by decide), fun hr => absurd hr.2 (not_lt.mpr h₂.1)⟩,
      ⟨fun _ => h₂, fun _ => rfl⟩,
      ⟨fun hs => absurd hs (by decide), fun hr => absurd h₂.2 (not_lt.mpr hr.1)⟩,
      ⟨fun hs => absurd hs (by decide), fun hr => absurd h₂.2 (not_lt.mpr (by linarith))⟩⟩
  · have h₅ : (5 : ℚ) ≤ bi := by linarith [h₃.1]
    exact ⟨⟨fun hs => absurd hs (by decide), fun hr => absurd hr.2 (not_lt.mpr h₅)⟩,
      ⟨fun hs => absurd hs (by decide), fun hr => absurd hr.2 (not_lt.mpr h₃.1)⟩,
      ⟨fun _ => h₃, fun _ => rfl⟩,
      ⟨fun hs => absurd hs (by decide), fun hr => absurd h₃.2 (not_lt.mpr hr)⟩⟩
  · have h₅ : (5 : ℚ) ≤ bi := not_lt.mp h₁
    have h₁₁ : (11 : ℚ) ≤ bi := by
      by_contra hc
      exact h₂ ⟨h₅, not_le.mp hc⟩
    have h₃₃ : (33 : ℚ) ≤ bi := by
      by_contra hc
      exact h₃ ⟨h₁₁, not_le.mp hc⟩
    exact ⟨⟨fun hs => absurd hs (by decide), fun hr => absurd hr.2 (not_lt.mpr (by linarith))⟩,
      ⟨fun hs => absurd hs (by decide), fun hr => absurd hr.2 (not_lt.mpr h₁₁)⟩,
      ⟨fun hs => absurd hs (by decide), fun hr => absurd hr.2 (not_lt.mpr h₃₃)⟩,
      ⟨fun _ => h₃₃, fun _ => rfl⟩⟩

/-- C3: `group_by_buyin_range` is a partition into the four fixed buckets
"0–5" = [0,5), "5–11" = [5,11), "11–33" = [11,33), "33+" = [33,∞): the bucket
labels are exactly these four in order; a record is in the input iff it is in
some bucket; distinct buckets are disjoint; membership in a bucket is
determined by the record's buy-in key; and on non-negative buy-ins (the data
model's domain) the key realises exactly the half-open intervals. -/
theorem buyin_bracket_partition (ts : List Tournament) :
    ((group_by_buyin_range ts).map Prod.fst = ["0–5", "5–11", "11–33", "33+"])
    ∧ (∀ t, t ∈ ts ↔ ∃ p ∈ group_by_buyin_range ts, t ∈ p.2)
    ∧ List.Pairwise (fun p q => ∀ t, t ∈ p.2 → t ∉ q.2) (group_by_buyin_range ts)
    ∧ (∀ t : Tournament, ∀ p ∈ group_by_buyin_range ts,
        (t ∈ p.2 ↔ t ∈ ts ∧ p.1 = buyinKey t.buy_in))
    ∧ (∀ bi : ℚ, 0 ≤ bi →
        ((buyinKey bi = "0–5" ↔ 0 ≤ bi ∧ bi < 5)
         ∧ (buyinKey bi = "5–11" ↔ 5 ≤ bi ∧ bi < 11)
         ∧ (buyinKey bi = "11–33" ↔ 11 ≤ bi ∧ bi < 33)
         ∧ (buyinKey bi = "33+" ↔ 33 ≤ bi))) := by
  refine ⟨rfl, ?_, ?_, ?_, fun bi h => buyinKey_intervals bi h⟩
  · intro t
    constructor
    · intro ht
      refine ⟨(buyinKey t.buy_in,
        ts.filter (fun x => buyinKey x.buy_in == buyinKey t.buy_in)), ?_, ?_⟩
      · exact List.mem_map.mpr ⟨buyinKey t.buy_in, buyinKey_mem_labels _, rfl⟩
      · exact List.mem_filter.mpr ⟨ht, by simp⟩
    · rintro ⟨p, hp, htp⟩
      obtain ⟨L, _, rfl⟩ := List.mem_map.mp hp
      exact (List.mem_filter.mp htp).1
  · unfold group_by_buyin_range
    rw [List.pairwise_map]
    exact (show buyinLabels.Nodup by decide).imp
      (fun hne => buyin_filter_exclusive ts _ _ hne)
  · intro t p hp
    obtain ⟨L, _, rfl⟩ := List.mem_map.mp hp
    simp only [List.mem_filter, beq_iff_eq]
    constructor
    · rintro ⟨ht, he⟩
      exact ⟨ht, he.symm⟩
    · rintro ⟨ht, he⟩
      exact ⟨ht, he.symm⟩

/-- C3 witness: the boundary value 5 falls in the upper bucket "5–11". -/
theorem buyin_bracket_partition_witness : buyinKey 5 = "5–11" :=
  ((buyin_bracket_partition []).2.2.2.2 5 (by norm_num)).2.1.mpr (by norm_num)

/-- C9: `group_by_format` keys each record by its format string, or the
literal label "UNKNOWN" when the format is empty, and lists the groups in
first-seen (insertion) order of their keys — each group holding, in input
order, exactly the records with that key. -/
theorem group_by_format_spec (ts : List Tournament) :
    group_by_format ts
      = (firstSeenKeys (ts.map fmtKey)).map
          (fun k => (k, ts.filter (fun t => fmtKey t == k)))
    ∧ ∀ t : Tournament, fmtKey t = if t.format = "" then "UNKNOWN" else t.format :=
  ⟨groupByKey_eq fmtKey ts, fun _ => rfl⟩

/-- C8: filtering is idempotent: filtering an already-filtered list with the
same parameters changes nothing. -/
theorem filter_idempotent (ts : List Tournament) (p : FilterParams) :
    filter_tournaments (filter_tournaments ts p) p = filter_tournaments ts p := by
  unfold filter_tournaments
  rw [List.filter_filter]
  simp

/-- C2 counterexample: with the room criterion supplied as the empty string,
the code returns a record whose room is "A", while the claimed semantics
(case-insensitive exact match on every provided criterion) returns nothing. -/
theorem filter_empty_criterion_counterexample :
    filter_tournaments [roomA] ⟨none, none, some "", none, none⟩
      ≠ [roomA].filter (spec_matches ⟨none, none, some "", none, none⟩) := by
  decide

/-- C2 (amended): `filter_tournaments` returns exactly the records matching
all provided criteria — `date >= fromDate`, `date <= toDate` (inclusive) and
case-insensitive exact equality on room, format and currency — where an
absent **or empty-string** criterion imposes no constraint; the output
preserves the input order (it is a sublist of the input). -/
theorem filter_matches_provided_criteria (ts : List Tournament) (p : FilterParams) :
    filter_tournaments ts p = ts.filter (spec_matches_amended p)
    ∧ (filter_tournaments ts p).Sublist ts := by
  constructor
  · unfold filter_tournaments
    exact List.filter_congr (fun t _ => passes_eq_amended p t)
  · exact List.filter_sublist ts

/-- C10: a filter criterion supplied as the empty string imposes no
constraint (for room, format and currency alike), and a record whose room is
empty is never kept once a nonempty room criterion is given. -/
theorem empty_criterion_like_absent (ts : List Tournament) (s : String) :
    filter_tournaments ts ⟨none, none, some "", none, none⟩ = ts
    ∧ filter_tournaments ts ⟨none, none, none, some "", none⟩ = ts
    ∧ filter_tournaments ts ⟨none, none, none, none, some ""⟩ = ts
    ∧ (s ≠ "" →
        (filter_tournaments ts ⟨none, none, some s, none, none⟩).all
          (fun t => !(t.room == "")) = true) := by
  refine ⟨?_, ?_, ?_, ?_⟩
  · unfold filter_tournaments passes
    simp
  · unfold filter_tournaments passes
    simp
  · unfold filter_tournaments passes
    simp
  · intro hs
    rw [List.all_eq_true]
    intro t ht
    unfold filter_tournaments at ht
    rw [List.mem_filter] at ht
    have hp := ht.2
    simp only [passes, if_neg hs, Bool.and_eq_true, beq_iff_eq, and_true,
      true_and] at hp
    have hroom : strLower t.room = strLower s := hp
    have hne : t.room ≠ "" := by
      intro hr
      apply hs
      rw [hr] at hroom
      exact (strLower_eq_empty_iff s).mp hroom.symm
    simp [hne]

/-- C10 witness: with room criterion "X", a record with empty room is
excluded. -/
theorem empty_criterion_like_absent_witness :
    (filter_tournaments [emptyRoomT] ⟨none, none, some "X", none, none⟩).all
      (fun t => !(t.room == "")) = true :=
  (empty_criterion_like_absent [emptyRoomT] "X").2.2.2 (by decide)

/-- C4 counterexample: with an unrecognized mode and an empty record list the
code returns no groups at all, not a single "ALL" bucket. -/
theorem group_by_time_unknown_empty_counterexample :
    group_by_time ([] : List Tournament) "bogus" ≠ [("ALL", [])] := by decide

/-- C4 (amended): time grouping: mode "none" yields the single group
("ALL", all input records); in modes "day"/"week"/"month" every group's key
is the formatted key (YYYY-MM-DD, ISO YYYY-Www, YYYY-MM respectively) of each
of its members' dates and every record appears in the group of its own key; a
date in ISO week 1 yields a key of the form YYYY-W01; for every mode other
than "none" the output is sorted lexicographically by key ascending; and an
unrecognized mode falls back to the single bucket ("ALL", all records) on
nonempty input (on empty input it returns no groups — the correction). -/
theorem group_by_time_spec (ts : List Tournament) (mode : String) :
    group_by_time ts "none" = [("ALL", ts)]
    ∧ (∀ k g, (k, g) ∈ group_by_time ts "day" → ∀ t ∈ g, k = dayKey t.date)
    ∧ (∀ t ∈ ts, ∃ g, (dayKey t.date, g) ∈ group_by_time ts "day" ∧ t ∈ g)
    ∧ (∀ k g, (k, g) ∈ group_by_time ts "week" → ∀ t ∈ g, k = isoWeekKey t.date)
    ∧ (∀ t ∈ ts, ∃ g, (isoWeekKey t.date, g) ∈ group_by_time ts "week" ∧ t ∈ g)
    ∧ (∀ k g, (k, g) ∈ group_by_time ts "month" → ∀ t ∈ g, k = monthKey t.date)
    ∧ (∀ t ∈ ts, ∃ g, (monthKey t.date, g) ∈ group_by_time ts "month" ∧ t ∈ g)
    ∧ (∀ d : Date, (isocalendar d).2 = 1 →
        isoWeekKey d = toString (isocalendar d).1 ++ "-W01")
    ∧ (mode ≠ "none" → List.Sorted keyLe (group_by_time ts mode))
    ∧ (mode ≠ "none" → mode ≠ "day" → mode ≠ "week" → mode ≠ "month" →
        ts ≠ [] → group_by_time ts mode = [("ALL", ts)]) := by
  refine ⟨rfl, ?_, ?_, ?_, ?_, ?_, ?_, ?_,
    fun h => group_by_time_sorted ts mode h,
    fun h₀ h₁ h₂ h₃ hne => group_by_time_unknown ts mode h₀ h₁ h₂ h₃ hne⟩
  · intro k g hm t htg
    rw [group_by_time_group_key ts "day" (by decide) k g hm] at htg
    have hk := (List.mem_filter.mp htg).2
    simp only [beq_iff_eq] at hk
    rw [← hk]
    rfl
  · intro t ht
    obtain ⟨g, hg, htg⟩ := group_by_time_complete ts "day" (by decide) t ht
    exact ⟨g, hg, htg⟩
  · intro k g hm t htg
    rw [group_by_time_group_key ts "week" (by decide) k g hm] at htg
    have hk := (List.mem_filter.mp htg).2
    simp only [beq_iff_eq] at hk
    rw [← hk]
    rfl
  · intro t ht
    obtain ⟨g, hg, htg⟩ := group_by_time_complete ts "week" (by decide) t ht
    exact ⟨g, hg, htg⟩
  · intro k g hm t htg
    rw [group_by_time_group_key ts "month" (by decide) k g hm] at htg
    have hk := (List.mem_filter.mp htg).2
    simp only [beq_iff_eq] at hk
    rw [← hk]
    rfl
  · intro t ht
    obtain ⟨g, hg, htg⟩ := group_by_time_complete ts "month" (by decide) t ht
    exact ⟨g, hg, htg⟩
  · intro d h
    unfold isoWeekKey
    rw [h, show pad02 1 = "01" from by decide, String.append_assoc,
      show ("-W" ++ "01" : String) = "-W01" from by decide]

/-- C4 witness: a concrete unrecognized mode over a nonempty input falls back
to the single "ALL" bucket. -/
theorem group_by_time_spec_witness :
    group_by_time [dayT] "bogus" = [("ALL", [dayT])] :=
  (group_by_time_spec [dayT] "bogus").2.2.2.2.2.2.2.2.2 (by decide) (by decide)
    (by decide) (by decide) (by decide)

/-- C1 counterexample: on Scenario C's records (buy-in 5/rake 0/result 0 and
buy-in 5/rake 0/result 20) the code's profit is 20 − 10 = 10, not the claimed
15 (and ROI is 100, not 150). -/
theorem summarize_scenarioC_counterexample :
    (calc_summary_stats [scenT1, scenT2]).profit ≠ 15 := by
  norm_num [calc_summary_stats, scenT1, scenT2]

/-- C1 (amended): `calc_summary_stats` returns count = length, itmCount = the
number of records with positive result, the three sums, totalCost = totalBuyIn
+ totalRake and profit = totalResult − totalCost; on Scenario C's two records
it gives count 2, itmCount 1, itmPercent 50, totalCost 10, totalResult 20,
profit 10 and roiPercent 100 (the claimed profit 15 / ROI 150 corrected). -/
theorem summarize_fields_and_scenarioC (ts : List Tournament) :
    (calc_summary_stats ts).total = ts.length
    ∧ (calc_summary_stats ts).total_itm
        = (ts.filter (fun t => decide (0 < t.result))).length
    ∧ (calc_summary_stats ts).total_buy_in = (ts.map (fun t => t.buy_in)).sum
    ∧ (calc_summary_stats ts).total_rake = (ts.map (fun t => t.rake)).sum
    ∧ (calc_summary_stats ts).total_cost
        = (calc_summary_stats ts).total_buy_in + (calc_summary_stats ts).total_rake
    ∧ (calc_summary_stats ts).total_result = (ts.map (fun t => t.result)).sum
    ∧ (calc_summary_stats ts).profit
        = (calc_summary_stats ts).total_result - (calc_summary_stats ts).total_cost
    ∧ calc_summary_stats [scenT1, scenT2] = ⟨2, 1, 10, 0, 10, 20, 10, 50, 100⟩ := by
  refine ⟨rfl, rfl, rfl, rfl, rfl, rfl, rfl, ?_⟩
  norm_num [calc_summary_stats, List.filter_cons, Tournament.is_itm, scenT1,
    scenT2, Stats.mk.injEq]

/-- C5: `summarize` never divides by zero: itmPercent is guarded by a nonzero
count, roiPercent by a positive total cost; the empty selection yields the
all-zero statistics; and roiPercent is 0 whenever totalCost is 0, regardless
of the count. -/
theorem summarize_guards_division (ts : List Tournament) :
    ((calc_summary_stats ts).itm_pct
      = if ts.length ≠ 0
          then ((calc_summary_stats ts).total_itm : ℚ) / (ts.length : ℚ) * 100
          else 0)
    ∧ ((calc_summary_stats ts).roi_pct
      = if 0 < (calc_summary_stats ts).total_cost
          then (calc_summary_stats ts).profit
            / (calc_summary_stats ts).total_cost * 100
          else 0)
    ∧ calc_summary_stats [] = ⟨0, 0, 0, 0, 0, 0, 0, 0, 0⟩
    ∧ ((calc_summary_stats ts).total_cost = 0 →
        (calc_summary_stats ts).roi_pct = 0) := by
  refine ⟨rfl, rfl, by norm_num [calc_summary_stats], ?_⟩
  intro h
  have h₂ : (calc_summary_stats ts).roi_pct
      = if 0 < (calc_summary_stats ts).total_cost
          then (calc_summary_stats ts).profit
            / (calc_summary_stats ts).total_cost * 100
          else 0 := rfl
  rw [h₂, h]
  norm_num

/-- C5 witness: a one-record selection with zero total cost and 100% ITM rate
still has ROI 0 — ROI depends on cost, not count. -/
theorem summarize_guards_division_witness :
    (calc_summary_stats [freeWinT]).total_cost = 0
    ∧ (calc_summary_stats [freeWinT]).roi_pct = 0 := by
  have hc : (calc_summary_stats [freeWinT]).total_cost = 0 := by
    norm_num [calc_summary_stats, freeWinT]
  exact ⟨hc, (summarize_guards_division [freeWinT]).2.2.2 hc⟩

/-- C6 counterexample: a row with buy-in "-5" and currency "usd" is accepted
by ingestion, producing a record with a negative buy-in and a lowercase
currency — the claimed data-model invariants do not hold for it. -/
theorem from_csv_row_invariant_counterexample :
    (Tournament.from_csv_row rowNeg).1 = some recNeg
    ∧ ¬(0 ≤ recNeg.buy_in ∧ 0 ≤ recNeg.rake ∧ 0 ≤ recNeg.place
        ∧ 0 ≤ recNeg.players ∧ recNeg.currency ≠ ""
        ∧ strUpper recNeg.currency = recNeg.currency) := by
  constructor
  · have key : (Tournament.from_csv_row rowNeg).1
        = some ⟨⟨2024, 1, 1⟩, "", "", to_float "-5", to_float "0", "usd",
            to_float "0", to_int "0", to_int "0", "", ""⟩ := rfl
    rw [key]
    norm_num [recNeg, Tournament.mk.injEq,
      show to_float "-5" = (-1 : ℚ) * ((5 : Nat) : ℚ) from rfl,
      show to_float "0" = (1 : ℚ) * ((0 : Nat) : ℚ) from rfl,
      show to_int "0" = (1 : ℤ) * ((0 : Nat) : ℤ) from rfl]
  · rintro ⟨h₁, -⟩
    norm_num [recNeg] at h₁

/-- C6 (amended): every record constructed by ingestion has a nonempty
currency; its buy_in, rake, place and players are non-negative whenever the
corresponding raw field (after stripping) does not start with a minus sign —
in particular blank or unparseable numeric fields coerce to 0.  Ingestion
does not uppercase the currency nor reject negative numerics. -/
theorem from_csv_row_invariants_amended (r : Row) (t : Tournament)
    (ws : List String) (h : Tournament.from_csv_row r = (some t, ws)) :
    t.currency ≠ ""
    ∧ (startsWithDash (pyStrip (r.buy_in.getD "0")) = false → 0 ≤ t.buy_in)
    ∧ (startsWithDash (pyStrip (r.rake.getD "0")) = false → 0 ≤ t.rake)
    ∧ (startsWithDash (pyStrip (r.place.getD "0")) = false → 0 ≤ t.place)
    ∧ (startsWithDash (pyStrip (r.players.getD "0")) = false →
        0 ≤ t.players) := by
  rcases hd : r.date.bind parse_date with _ | d
  · simp [Tournament.from_csv_row, hd] at h
  · simp only [Tournament.from_csv_row, hd, Prod.mk.injEq,
      Option.some.injEq] at h
    obtain ⟨ht, -⟩ := h
    subst ht
    refine ⟨?_, fun hb => to_float_nonneg _ hb, fun hb => to_float_nonneg _ hb,
      fun hb => to_int_nonneg _ hb, fun hb => to_int_nonneg _ hb⟩
    by_cases hc : pyStrip (r.currency.getD "") = ""
    · simp only [Tournament.currency, if_pos hc]
      decide
    · simp only [Tournament.currency, if_neg hc]
      exact hc

/-- C6 witness: a well-formed row produces a record with nonempty currency
and non-negative buy-in and place. -/
theorem from_csv_row_invariants_amended_witness :
    recGood.currency ≠ "" ∧ 0 ≤ recGood.buy_in ∧ 0 ≤ recGood.place := by
  have h := from_csv_row_invariants_amended rowGood recGood [] rfl
  exact ⟨h.1, h.2.1 (by decide), h.2.2.2.1 (by decide)⟩

/-- C7: ingestion rejects a row exactly when its date field does not parse as
YYYY-MM-DD, printing a diagnostic quoting the raw value; numeric fields that
are empty or non-numeric coerce to 0 instead of rejecting; string fields
default to room "" (stripped), currency "USD" when blank, format/notes "". -/
theorem from_csv_row_rejection_spec (r : Row) :
    ((Tournament.from_csv_row r).1 = none ↔ r.date.bind parse_date = none)
    ∧ ((Tournament.from_csv_row r).1 = none →
        (Tournament.from_csv_row r).2
          = ["Предупреждение: не удалось распарсить дату: " ++ pyRepr r.date])
    ∧ to_float "" = 0 ∧ to_float "abc" = 0 ∧ to_int "" = 0 ∧ to_int "3.5" = 0
    ∧ (∀ t, (Tournament.from_csv_row r).1 = some t →
        t.room = pyStrip (r.room.getD "")
        ∧ t.currency = (if pyStrip (r.currency.getD "") = "" then "USD"
            else pyStrip (r.currency.getD ""))
        ∧ t.format = pyStrip (r.format.getD "")
        ∧ t.notes = pyStrip (r.notes.getD "")
        ∧ t.buy_in = to_float (r.buy_in.getD "0")
        ∧ t.rake = to_float (r.rake.getD "0")
        ∧ t.result = to_float (r.result.getD "0")
        ∧ t.place = to_int (r.place.getD "0")
        ∧ t.players = to_int (r.players.getD "0")) := by
  refine ⟨?_, ?_, rfl, rfl, rfl, rfl, ?_⟩
  · rcases hd : r.date.bind parse_date with _ | d <;>
      simp [Tournament.from_csv_row, hd]
  · intro hn
    rcases hd : r.date.bind parse_date with _ | d
    · simp [Tournament.from_csv_row, hd, dateWarning]
    · simp [Tournament.from_csv_row, hd] at hn
  · intro t ht
    rcases hd : r.date.bind parse_date with _ | d
    · simp [Tournament.from_csv_row, hd] at ht
    · simp only [Tournament.from_csv_row, hd, Option.some.injEq] at ht
      subst ht
      exact ⟨rfl, rfl, rfl, rfl, rfl, rfl, rfl, rfl, rfl⟩

/-- C7 witness: the row with date "oops" is rejected and the diagnostic
quotes the bad value. -/
theorem from_csv_row_rejection_spec_witness :
    (Tournament.from_csv_row rowBadDate).2
      = ["Предупреждение: не удалось распарсить дату: 'oops'"] := by
  rw [(from_csv_row_rejection_spec rowBadDate).2.1 rfl]
  decide
